import Mathlib

/-!
Shallow embedding of the nyxo.js native transport codec core:
the Discord voice transport AEAD cipher (`packages/opus/native/crypto.cpp`),
the suffix-framed zlib inflate stream (`packages/zlib/native/zlib.cpp`) and
the self-delimiting zstd inflate stream (`packages/zstd/native/zstd.cpp`).

Bytes are modelled as `Nat` (values below 256 where it matters), byte
sequences as `List Nat`, and the 32-bit nonce counter as a `Nat` reduced
modulo `2 ^ 32` at every update, mirroring the `uint32_t` arithmetic of the
source.  The external AEAD primitives (libsodium) and the external
decompression codecs (zlib / zstd) are not part of this repository; they are
abstracted as explicit function parameters, and theorems state the needed
facts about them as hypotheses discharged by concrete executable instances.
-/

namespace Nyxo

/-- `2 ^ 32`, the modulus of the `uint32_t` nonce counter. -/
def UINT32_MOD : Nat := 4294967296

/-- Big-endian byte serialisation of a 32-bit value, as produced by
`htonl` followed by `memcpy` of the four bytes in the source. -/
def be32 (n : Nat) : List Nat :=
  [n / 16777216 % 256, n / 65536 % 256, n / 256 % 256, n % 256]

namespace VoiceTransportCrypto

/-- `EncryptionMode` from `crypto.cpp`. -/
inductive EncryptionMode where
  | noneMode
  | aes256gcm
  | xchacha20poly1305
deriving DecidableEq, Repr

/-- The mutable fields of `VoiceTransportCrypto` that the claims are about:
`mode_`, `secret_key_`, `nonce_counter_` and `initialized_`.
`InitializeCrypto` resizes `secret_key_` to 32 zero bytes, so a freshly
constructed instance carries the all-zero placeholder key. -/
structure CryptoState where
  mode : EncryptionMode
  secretKey : List Nat
  nonceCounter : Nat
  inited : Bool
deriving DecidableEq, Repr

/-- An abstract AEAD primitive (libsodium's
`crypto_aead_aes256gcm_{encrypt,decrypt}` or the `xchacha20poly1305_ietf`
pair): combined ciphertext-plus-tag encryption and verifying decryption,
each of which may fail (nonzero return in C). -/
structure AEADPrim where
  enc : List Nat → List Nat → List Nat → List Nat → Option (List Nat)
  dec : List Nat → List Nat → List Nat → List Nat → Option (List Nat)

/-- One distinct error per distinct thrown message in `crypto.cpp`. -/
inductive CryptoError where
  | notInited          -- "Crypto not initialized"
  | noModeSet          -- "No encryption mode set"
  | headerTooSmall     -- "RTP header too small"
  | ciphertextTooSmall -- "Ciphertext too small"
  | encryptionFailed   -- "Encryption operation failed"
  | decryptionFailed   -- "Decryption operation failed"
deriving DecidableEq, Repr

/-- Result of an encrypt/decrypt call: a returned buffer or a thrown error. -/
inductive CryptoResult where
  | ok (data : List Nat)
  | error (e : CryptoError)
deriving DecidableEq, Repr

/-- `DISCORD_SECRET_KEY_SIZE`. -/
def DISCORD_SECRET_KEY_SIZE : Nat := 32
/-- `AES_GCM_TAG_SIZE`. -/
def AES_GCM_TAG_SIZE : Nat := 16
/-- `XCHACHA20_POLY1305_TAG_SIZE`. -/
def XCHACHA20_POLY1305_TAG_SIZE : Nat := 16
/-- `NONCE_SIZE`: the 4 trailing wire-nonce bytes. -/
def NONCE_SIZE : Nat := 4
/-- `RTP_HEADER_SIZE`: minimum header length. -/
def RTP_HEADER_SIZE : Nat := 12

/-- `ValidateSecretKey`: exactly 32 bytes and not all zeros. -/
def ValidateSecretKey (key : List Nat) : Bool :=
  decide (key.length = DISCORD_SECRET_KEY_SIZE) && key.any (fun b => b != 0)

/-- `GetCurrentTagSize`. -/
def GetCurrentTagSize (m : EncryptionMode) : Nat :=
  match m with
  | .aes256gcm => AES_GCM_TAG_SIZE
  | .xchacha20poly1305 => XCHACHA20_POLY1305_TAG_SIZE
  | .noneMode => 0

/-- `EncryptAES256GCM`: 12-byte nonce = 8 zero bytes plus the big-endian
counter; on primitive success the same 4 counter bytes are appended to the
combined ciphertext. -/
def EncryptAES256GCM (p : AEADPrim) (key : List Nat) (counter : Nat)
    (header payload : List Nat) : Option (List Nat) :=
  let nonce := List.replicate 8 0 ++ be32 counter
  match p.enc key nonce header payload with
  | some ct => some (ct ++ be32 counter)
  | none => none

/-- `EncryptXChaCha20Poly1305`: 24-byte nonce = 20 zero bytes plus the
big-endian counter; counter bytes appended on success. -/
def EncryptXChaCha20Poly1305 (p : AEADPrim) (key : List Nat) (counter : Nat)
    (header payload : List Nat) : Option (List Nat) :=
  let nonce := List.replicate 20 0 ++ be32 counter
  match p.enc key nonce header payload with
  | some ct => some (ct ++ be32 counter)
  | none => none

/-- `DecryptAES256GCM`: reads the trailing 4 bytes as the wire nonce,
rebuilds the 12-byte nonce and verifies the remaining bytes. -/
def DecryptAES256GCM (p : AEADPrim) (key : List Nat)
    (header blob : List Nat) : Option (List Nat) :=
  if blob.length < NONCE_SIZE + AES_GCM_TAG_SIZE then none
  else
    let nonceBytes := blob.drop (blob.length - NONCE_SIZE)
    let nonce := List.replicate 8 0 ++ nonceBytes
    let actual := blob.take (blob.length - NONCE_SIZE)
    p.dec key nonce header actual

/-- `DecryptXChaCha20Poly1305`: trailing 4 bytes as wire nonce, 24-byte
nonce rebuilt with 20 zero bytes. -/
def DecryptXChaCha20Poly1305 (p : AEADPrim) (key : List Nat)
    (header blob : List Nat) : Option (List Nat) :=
  if blob.length < NONCE_SIZE + XCHACHA20_POLY1305_TAG_SIZE then none
  else
    let nonceBytes := blob.drop (blob.length - NONCE_SIZE)
    let nonce := List.replicate 20 0 ++ nonceBytes
    let actual := blob.take (blob.length - NONCE_SIZE)
    p.dec key nonce header actual

/-- The mode dispatch of `Encrypt`'s `switch`. -/
def encryptCore (prim : EncryptionMode → AEADPrim) (s : CryptoState)
    (header payload : List Nat) : Option (List Nat) :=
  match s.mode with
  | .aes256gcm =>
      EncryptAES256GCM (prim .aes256gcm) s.secretKey s.nonceCounter header payload
  | .xchacha20poly1305 =>
      EncryptXChaCha20Poly1305 (prim .xchacha20poly1305) s.secretKey s.nonceCounter header payload
  | .noneMode => none

/-- The mode dispatch of `Decrypt`'s `switch`. -/
def decryptCore (prim : EncryptionMode → AEADPrim) (m : EncryptionMode)
    (key header blob : List Nat) : Option (List Nat) :=
  match m with
  | .aes256gcm => DecryptAES256GCM (prim .aes256gcm) key header blob
  | .xchacha20poly1305 => DecryptXChaCha20Poly1305 (prim .xchacha20poly1305) key header blob
  | .noneMode => none

/-- `VoiceTransportCrypto::Encrypt`: validation in source order, then the
mode-specific AEAD call; the counter is incremented (as `uint32_t`) only on
success.  Returns the result together with the state after the call. -/
def Encrypt (prim : EncryptionMode → AEADPrim) (s : CryptoState)
    (header payload : List Nat) : CryptoResult × CryptoState :=
  if s.inited = false then (.error .notInited, s)
  else if s.mode = .noneMode then (.error .noModeSet, s)
  else if header.length < RTP_HEADER_SIZE then (.error .headerTooSmall, s)
  else
    match encryptCore prim s header payload with
    | some blob =>
        (.ok blob, { s with nonceCounter := (s.nonceCounter + 1) % UINT32_MOD })
    | none => (.error .encryptionFailed, s)

/-- `VoiceTransportCrypto::Decrypt`: validation in source order (header
length, then `tagSize + 4` minimum blob length), then the mode-specific
verifying decryption.  No field of the state is written on any path. -/
def Decrypt (prim : EncryptionMode → AEADPrim) (s : CryptoState)
    (header blob : List Nat) : CryptoResult × CryptoState :=
  if s.inited = false then (.error .notInited, s)
  else if s.mode = .noneMode then (.error .noModeSet, s)
  else if header.length < RTP_HEADER_SIZE then (.error .headerTooSmall, s)
  else if blob.length < GetCurrentTagSize s.mode + NONCE_SIZE then
    (.error .ciphertextTooSmall, s)
  else
    match decryptCore prim s.mode s.secretKey header blob with
    | some pt => (.ok pt, s)
    | none => (.error .decryptionFailed, s)

/-- `GetNonce`. -/
def GetNonce (s : CryptoState) : Nat := s.nonceCounter

/-- `SetNonce`: the JS number is converted through `Uint32Value`, i.e. the
stored counter is the argument reduced modulo `2 ^ 32`. -/
def SetNonce (s : CryptoState) (v : Nat) : CryptoState :=
  { s with nonceCounter := v % UINT32_MOD }

/-- `IncrementNonce`: `nonce_counter_++` on a `uint32_t`, returning the new
value. -/
def IncrementNonce (s : CryptoState) : Nat × CryptoState :=
  let s' := { s with nonceCounter := (s.nonceCounter + 1) % UINT32_MOD }
  (s'.nonceCounter, s')

/-- `Reset`: zeroes the counter. -/
def Reset (s : CryptoState) : CryptoState := { s with nonceCounter := 0 }

/-- Length of the zero padding in front of the 4 counter bytes of the AEAD
nonce: 8 for the 12-byte AES-256-GCM nonce, 20 for the 24-byte
XChaCha20-Poly1305 nonce. -/
def noncePadLen : EncryptionMode → Nat
  | .aes256gcm => 8
  | .xchacha20poly1305 => 20
  | .noneMode => 0

/-- A concrete executable AEAD used to witness the abstract theorems: the
tag is sixteen copies of a checksum over key, nonce, associated data and
message, so any single-byte change is detected. -/
def toyTag (key nonce aad pt : List Nat) : List Nat :=
  List.replicate 16 ((key.sum + nonce.sum + aad.sum + pt.sum) % 256)

/-- Toy AEAD instance: ciphertext = message followed by the checksum tag;
decryption re-derives and compares the tag. -/
def toyPrim : AEADPrim where
  enc := fun key nonce aad pt => some (pt ++ toyTag key nonce aad pt)
  dec := fun key nonce aad c =>
    if 16 ≤ c.length ∧ c.drop (c.length - 16) = toyTag key nonce aad (c.take (c.length - 16))
    then some (c.take (c.length - 16)) else none

/-- Both modes driven by the toy AEAD. -/
def toyPrims : EncryptionMode → AEADPrim := fun _ => toyPrim

/-- A 12-byte RTP header of zero bytes. -/
def hdr12 : List Nat := List.replicate 12 0

/-- A configured state with a set (non-zero) key. -/
def sReady : CryptoState :=
  { mode := .xchacha20poly1305, secretKey := 1 :: List.replicate 31 0,
    nonceCounter := 0, inited := true }

/-- A configured state in AES-256-GCM mode with a set (non-zero) key. -/
def sGcm : CryptoState :=
  { mode := .aes256gcm, secretKey := 1 :: List.replicate 31 0,
    nonceCounter := 0, inited := true }

/-- A configured state whose counter sits at `2 ^ 32 - 1`. -/
def sWrap : CryptoState :=
  { mode := .xchacha20poly1305, secretKey := 1 :: List.replicate 31 0,
    nonceCounter := 4294967295, inited := true }

/-- A state right after construction plus `setMode`: the key was never set,
so `secret_key_` still holds the 32 zero bytes from `InitializeCrypto`. -/
def sNoKey : CryptoState :=
  { mode := .xchacha20poly1305, secretKey := List.replicate 32 0,
    nonceCounter := 0, inited := true }

end VoiceTransportCrypto

/-- Errors thrown by `Push` on both decompression streams, one per thrown
message. -/
inductive StreamError where
  | notInited       -- "Stream not initialized"
  | streamFinished  -- "Stream is finished"
deriving DecidableEq, Repr

/-- Result of a `push` call: the returned boolean or a thrown error. -/
inductive PushResult where
  | ok (processed : Bool)
  | error (e : StreamError)
deriving DecidableEq, Repr

namespace DiscordInflateStream

/-- `ZLIB_SUFFIX`: the 4-byte Discord transport flush marker. -/
def ZLIB_SUFFIX : List Nat := [0, 0, 255, 255]

/-- `ZLIB_SUFFIX_SIZE`. -/
def ZLIB_SUFFIX_SIZE : Nat := 4

/-- `Z_OK`. -/
def Z_OK : Int := 0
/-- `Z_STREAM_END`. -/
def Z_STREAM_END : Int := 1
/-- `Z_DATA_ERROR`. -/
def Z_DATA_ERROR : Int := -3
/-- `Z_BUF_ERROR`. -/
def Z_BUF_ERROR : Int := -5

/-- The observable outcome of one `inflate(&stream_, Z_SYNC_FLUSH)` call:
the codec's internal state afterwards, the number of input bytes consumed,
the bytes produced into the scratch buffer, and the return code. -/
structure ZlibStep where
  st : Nat
  consumed : Nat
  out : List Nat
  ret : Int
deriving DecidableEq, Repr

/-- The external zlib inflate codec, abstracted: internal state is an opaque
`Nat`; `step st input outCap` is one `inflate` call in sync-flush mode over
the remaining input with a scratch buffer of capacity `outCap`. -/
structure ZlibCodec where
  step : Nat → List Nat → Nat → ZlibStep

/-- The fields of `DiscordInflateStream` the claims are about: the opaque
`z_stream` state, the input accumulator `buffer_`, `output_buffer_`,
`initialized_`, `finished_`, `last_error_`, `chunk_size_` and the byte
counters. -/
structure StreamState where
  codecSt : Nat
  buffer : List Nat
  outputBuffer : List Nat
  inited : Bool
  finished : Bool
  lastError : Int
  chunkSize : Nat
  bytesRead : Nat
  bytesWritten : Nat
deriving DecidableEq, Repr

/-- `HasZlibSuffix`: the accumulator's trailing 4 bytes equal the marker. -/
def HasZlibSuffix (l : List Nat) : Bool :=
  if l.length < ZLIB_SUFFIX_SIZE then false
  else l.drop (l.length - ZLIB_SUFFIX_SIZE) == ZLIB_SUFFIX

/-- Outcome of the do/while inflate loop of `ProcessBuffer`. -/
inductive RunResult where
  | done (st : Nat) (out : List Nat)
  | fail (st : Nat) (out : List Nat) (code : Int)
  | noFuel
deriving DecidableEq, Repr

/-- The do/while loop of `DiscordInflateStream::ProcessBuffer`: call
`inflate` with `Z_SYNC_FLUSH`; on a return code other than `Z_OK` or
`Z_BUF_ERROR` record the error and break, discarding that call's scratch
output; otherwise append the produced bytes, double the scratch capacity
when it filled with input left over, and continue while input remains and
the code was `Z_OK`.  `fuel` bounds the iteration count (the C++ loop relies
on zlib's progress guarantee for termination). -/
def inflateLoop (c : ZlibCodec) :
    Nat → Nat → List Nat → Nat → List Nat → RunResult
  | 0, _, _, _, _ => .noFuel
  | fuel + 1, st, inp, cap, acc =>
    let o := c.step st inp cap
    if o.ret ≠ Z_OK ∧ o.ret ≠ Z_BUF_ERROR then .fail o.st acc o.ret
    else
      let acc' := acc ++ o.out
      let inp' := inp.drop o.consumed
      let cap' := if o.out.length = cap ∧ inp' ≠ [] then cap * 2 else cap
      if inp' ≠ [] ∧ o.ret = Z_OK then inflateLoop c fuel o.st inp' cap' acc'
      else .done o.st acc'

/-- `DiscordInflateStream::ProcessBuffer`: without the trailing marker,
buffer and report false; with it, drain the whole accumulator through the
loop, append produced bytes, record any breaking error in `last_error_`,
clear the input accumulator and report true. -/
def ProcessBuffer (c : ZlibCodec) (fuel : Nat) (s : StreamState) :
    StreamState × Bool :=
  if HasZlibSuffix s.buffer = false then (s, false)
  else
    match inflateLoop c fuel s.codecSt s.buffer s.chunkSize [] with
    | .done st' out =>
        ({ s with codecSt := st', buffer := [],
                  outputBuffer := s.outputBuffer ++ out,
                  bytesWritten := s.bytesWritten + out.length }, true)
    | .fail st' out code =>
        ({ s with codecSt := st', buffer := [],
                  outputBuffer := s.outputBuffer ++ out,
                  bytesWritten := s.bytesWritten + out.length,
                  lastError := code }, true)
    | .noFuel => (s, false)

/-- `DiscordInflateStream::Push`: guards in source order, empty input
returns false untouched, otherwise append to the accumulator, count the
bytes and run `ProcessBuffer`. -/
def Push (c : ZlibCodec) (fuel : Nat) (s : StreamState) (data : List Nat) :
    StreamState × PushResult :=
  if s.inited = false then (s, .error .notInited)
  else if s.finished = true then (s, .error .streamFinished)
  else if data.length = 0 then (s, .ok false)
  else
    let s1 := { s with buffer := s.buffer ++ data,
                       bytesRead := s.bytesRead + data.length }
    let r := ProcessBuffer c fuel s1
    (r.1, .ok r.2)

/-- `DiscordInflateStream::Close`: releases the zlib context only when the
stream is still live (`initialized_` guards `inflateEnd`), clears both
accumulators and marks the stream finished; otherwise a no-op. -/
def Close (s : StreamState) : StreamState :=
  if s.inited = true then
    { s with inited := false, buffer := [], outputBuffer := [], finished := true }
  else s

/-- A toy codec for witnesses: consumes all input in one sync-flush call and
echoes it as "decompressed" output. -/
def echoCodec : ZlibCodec where
  step := fun st inp _ => ⟨st, inp.length, inp, Z_OK⟩

/-- A toy codec for witnesses of the error path: the first call succeeds,
consuming two bytes and producing one; the second reports `Z_DATA_ERROR`. -/
def failSecondCodec : ZlibCodec where
  step := fun st inp _ =>
    if st = 0 then ⟨1, 2, [9], Z_OK⟩ else ⟨st, inp.length, [7], Z_DATA_ERROR⟩

/-- A freshly initialised stream state. -/
def freshStream : StreamState :=
  { codecSt := 0, buffer := [], outputBuffer := [], inited := true,
    finished := false, lastError := Z_OK, chunkSize := 32768,
    bytesRead := 0, bytesWritten := 0 }

end DiscordInflateStream

namespace ZstdInflateStream

/-- The observable outcome of one `ZSTD_decompressStream` call: the codec's
internal state afterwards, input bytes consumed (advance of `input.pos`),
bytes produced (final `output.pos`), and the `size_t` return code (`0` means
a frame boundary was completed). -/
structure ZstdStep where
  st : Nat
  consumed : Nat
  out : List Nat
  ret : Nat
deriving DecidableEq, Repr

/-- The external zstd streaming decompressor, abstracted: `step st input
outCap` is one `ZSTD_decompressStream` call over the remaining input with a
fresh output buffer of capacity `outCap`; `isErr` is `ZSTD_isError`. -/
structure ZstdCodec where
  step : Nat → List Nat → Nat → ZstdStep
  isErr : Nat → Bool

/-- The fields of `ZstdInflateStream` the claims are about. -/
structure StreamState where
  codecSt : Nat
  inputBuffer : List Nat
  outputBuffer : List Nat
  inited : Bool
  handleAlive : Bool
  finished : Bool
  lastError : Nat
  outBufferSize : Nat
  bytesRead : Nat
  bytesWritten : Nat
  framesProcessed : Nat
deriving DecidableEq, Repr

/-- Outcome of the while loop of `ZstdInflateStream::ProcessBuffer`:
`done` carries the final `input.pos`, the accumulated output, the number of
completed frames and whether any output was produced; `fail` is the early
return on `ZSTD_isError`, which skips trimming the input accumulator. -/
inductive RunResult where
  | done (st : Nat) (pos : Nat) (out : List Nat) (frames : Nat) (hasOut : Bool)
  | fail (st : Nat) (out : List Nat) (frames : Nat) (code : Nat) (hasOut : Bool)
  | noFuel
deriving DecidableEq, Repr

/-- The `while (input.pos < input.size)` loop of
`ZstdInflateStream::ProcessBuffer`: each iteration decompresses from the
current position; an error returns immediately (that call's output is
discarded, the input stays untrimmed); otherwise output is appended, a zero
return counts a completed frame, and the loop breaks when a call produced
nothing with all input consumed.  `fuel` bounds the iterations (the C++
loop relies on zstd's progress-or-error guarantee). -/
def decompressLoop (c : ZstdCodec) :
    Nat → Nat → List Nat → Nat → Nat → List Nat → Nat → Bool → RunResult
  | 0, _, _, _, _, _, _, _ => .noFuel
  | fuel + 1, st, inp, cap, pos, acc, frames, hasOut =>
    if pos < inp.length then
      let o := c.step st (inp.drop pos) cap
      if c.isErr o.ret = true then .fail o.st acc frames o.ret hasOut
      else
        let acc' := acc ++ o.out
        let hasOut' := if o.out = [] then hasOut else true
        let frames' := if o.ret = 0 then frames + 1 else frames
        let pos' := pos + o.consumed
        if o.out = [] ∧ pos' = inp.length then .done o.st pos' acc' frames' hasOut'
        else decompressLoop c fuel o.st inp cap pos' acc' frames' hasOut'
    else .done st pos acc frames hasOut

/-- `ZstdInflateStream::ProcessBuffer`: run the loop over the whole input
accumulator; on normal exit trim the accumulator by exactly the consumed
byte count and report whether output was produced; on a codec error record
it in `last_error_` and report false, leaving the input untrimmed. -/
def ProcessBuffer (c : ZstdCodec) (fuel : Nat) (s : StreamState) :
    StreamState × Bool :=
  if s.inputBuffer = [] then (s, false)
  else
    match decompressLoop c fuel s.codecSt s.inputBuffer s.outBufferSize 0 [] 0 false with
    | .done st' pos out frames hasOut =>
        ({ s with codecSt := st', inputBuffer := s.inputBuffer.drop pos,
                  outputBuffer := s.outputBuffer ++ out,
                  bytesWritten := s.bytesWritten + out.length,
                  framesProcessed := s.framesProcessed + frames }, hasOut)
    | .fail st' out frames code hasOut =>
        ({ s with codecSt := st',
                  outputBuffer := s.outputBuffer ++ out,
                  bytesWritten := s.bytesWritten + out.length,
                  framesProcessed := s.framesProcessed + frames,
                  lastError := code }, false)
    | .noFuel => (s, false)

/-- `ZstdInflateStream::Push`: guards in source order, empty input returns
false untouched, otherwise append, count bytes and process. -/
def Push (c : ZstdCodec) (fuel : Nat) (s : StreamState) (data : List Nat) :
    StreamState × PushResult :=
  if s.inited = false then (s, .error .notInited)
  else if s.finished = true then (s, .error .streamFinished)
  else if data.length = 0 then (s, .ok false)
  else
    let s1 := { s with inputBuffer := s.inputBuffer ++ data,
                       bytesRead := s.bytesRead + data.length }
    let r := ProcessBuffer c fuel s1
    (r.1, .ok r.2)

/-- `ZstdInflateStream::Close`: `ZSTD_freeDStream` runs only while the
handle pointer is non-null (`handleAlive`); the handle is nulled,
`initialized_` cleared, buffers dropped and the stream marked finished;
a second call is a no-op. -/
def Close (s : StreamState) : StreamState :=
  if s.handleAlive = true then
    { s with handleAlive := false, inited := false,
             inputBuffer := [], outputBuffer := [], finished := true }
  else s

/-- The statistics record built by `GetStats` (the derived floating-point
ratio fields are omitted; they are recomputed from these counters). -/
structure Stats where
  bytesRead : Nat
  bytesWritten : Nat
  framesProcessed : Nat
deriving DecidableEq, Repr

/-- `ZstdInflateStream::GetStats` on the counter fields. -/
def GetStats (s : StreamState) : Stats :=
  ⟨s.bytesRead, s.bytesWritten, s.framesProcessed⟩

/-- A toy codec for witnesses: state 0 consumes two bytes as the first
frame producing `[10]`; any later state consumes the rest as the second
frame producing `[20]`.  Codes at or above 100 count as errors. -/
def twoFrameCodec : ZstdCodec where
  step := fun st inp _ =>
    if st = 0 then ⟨1, 2, [10], 0⟩ else ⟨2, inp.length, [20], 0⟩
  isErr := fun r => 100 ≤ r

/-- A freshly initialised zstd stream state. -/
def freshZstd : StreamState :=
  { codecSt := 0, inputBuffer := [], outputBuffer := [], inited := true,
    handleAlive := true, finished := false, lastError := 0,
    outBufferSize := 131072, bytesRead := 0, bytesWritten := 0,
    framesProcessed := 0 }

end ZstdInflateStream

/-! ## Theorems: transport cipher -/

namespace VoiceTransportCrypto

theorem be32_length (n : Nat) : (be32 n).length = 4 := rfl

theorem Encrypt_snd_of_error (prim : EncryptionMode → AEADPrim) (s : CryptoState)
    (header payload : List Nat) (e : CryptoError)
    (he : (Encrypt prim s header payload).1 = .error e) :
    (Encrypt prim s header payload).2 = s := by
  by_cases h1 : s.inited = false
  · simp [Encrypt, h1]
  · by_cases h2 : s.mode = .noneMode
    · simp [Encrypt, h1, h2]
    · by_cases h3 : header.length < RTP_HEADER_SIZE
      · simp [Encrypt, h1, h2, h3]
      · cases hc : encryptCore prim s header payload with
        | none => simp [Encrypt, h1, h2, h3, hc]
        | some b => simp [Encrypt, h1, h2, h3, hc] at he

theorem Encrypt_snd_of_ok (prim : EncryptionMode → AEADPrim) (s : CryptoState)
    (header payload blob : List Nat)
    (hok : (Encrypt prim s header payload).1 = .ok blob) :
    (Encrypt prim s header payload).2 =
      { s with nonceCounter := (s.nonceCounter + 1) % UINT32_MOD } := by
  by_cases h1 : s.inited = false
  · simp [Encrypt, h1] at hok
  · by_cases h2 : s.mode = .noneMode
    · simp [Encrypt, h1, h2] at hok
    · by_cases h3 : header.length < RTP_HEADER_SIZE
      · simp [Encrypt, h1, h2, h3] at hok
      · cases hc : encryptCore prim s header payload with
        | none => simp [Encrypt, h1, h2, h3, hc] at hok
        | some b => simp [Encrypt, h1, h2, h3, hc]

theorem Decrypt_snd (prim : EncryptionMode → AEADPrim) (s : CryptoState)
    (header blob : List Nat) : (Decrypt prim s header blob).2 = s := by
  by_cases h1 : s.inited = false
  · simp [Decrypt, h1]
  · by_cases h2 : s.mode = .noneMode
    · simp [Decrypt, h1, h2]
    · by_cases h3 : header.length < RTP_HEADER_SIZE
      · simp [Decrypt, h1, h2, h3]
      · by_cases h4 : blob.length < GetCurrentTagSize s.mode + NONCE_SIZE
        · simp [Decrypt, h1, h2, h3, h4]
        · cases hc : decryptCore prim s.mode s.secretKey header blob with
          | none => simp [Decrypt, h1, h2, h3, h4, hc]
          | some pt => simp [Decrypt, h1, h2, h3, h4, hc]

theorem Encrypt_of_core_some (prim : EncryptionMode → AEADPrim) (s : CryptoState)
    (header payload blob : List Nat)
    (h1 : s.inited = true) (h2 : s.mode ≠ .noneMode)
    (h3 : ¬ header.length < RTP_HEADER_SIZE)
    (hc : encryptCore prim s header payload = some blob) :
    Encrypt prim s header payload =
      (.ok blob, { s with nonceCounter := (s.nonceCounter + 1) % UINT32_MOD }) := by
  simp [Encrypt, h1, h2, h3, hc]

theorem Decrypt_of_core_some (prim : EncryptionMode → AEADPrim) (s : CryptoState)
    (header blob pt : List Nat)
    (h1 : s.inited = true) (h2 : s.mode ≠ .noneMode)
    (h3 : ¬ header.length < RTP_HEADER_SIZE)
    (h4 : ¬ blob.length < GetCurrentTagSize s.mode + NONCE_SIZE)
    (hc : decryptCore prim s.mode s.secretKey header blob = some pt) :
    Decrypt prim s header blob = (.ok pt, s) := by
  simp [Decrypt, h1, h2, h3, h4, hc]

theorem Decrypt_of_core_none (prim : EncryptionMode → AEADPrim) (s : CryptoState)
    (header blob : List Nat)
    (h1 : s.inited = true) (h2 : s.mode ≠ .noneMode)
    (h3 : ¬ header.length < RTP_HEADER_SIZE)
    (h4 : ¬ blob.length < GetCurrentTagSize s.mode + NONCE_SIZE)
    (hc : decryptCore prim s.mode s.secretKey header blob = none) :
    Decrypt prim s header blob = (.error .decryptionFailed, s) := by
  simp [Decrypt, h1, h2, h3, h4, hc]

/-- C1: for every 32-byte non-all-zero key, every header of at least 12
bytes and every payload, in either AEAD mode (abstracted as a primitive
whose verifying decryption inverts its encryption at the nonce the cipher
builds), `decrypt(header, encrypt(header, payload))` returns exactly the
original payload. -/
theorem encrypt_decrypt_roundtrip (prim : EncryptionMode → AEADPrim) (s : CryptoState)
    (header payload ct : List Nat)
    (hinit : s.inited = true) (hmode : s.mode ≠ .noneMode)
    (hkey : ValidateSecretKey s.secretKey = true)
    (hhdr : RTP_HEADER_SIZE ≤ header.length)
    (hlen : ct.length = payload.length + 16)
    (henc : (prim s.mode).enc s.secretKey
        (List.replicate (noncePadLen s.mode) 0 ++ be32 s.nonceCounter) header payload = some ct)
    (hdec : (prim s.mode).dec s.secretKey
        (List.replicate (noncePadLen s.mode) 0 ++ be32 s.nonceCounter) header ct = some payload) :
    (Encrypt prim s header payload).1 = .ok (ct ++ be32 s.nonceCounter) ∧
    (Decrypt prim (Encrypt prim s header payload).2 header
        (ct ++ be32 s.nonceCounter)).1 = .ok payload := by
  have h3 : ¬ header.length < RTP_HEADER_SIZE := Nat.not_lt.mpr hhdr
  have hblen : (ct ++ be32 s.nonceCounter).length = payload.length + 20 := by
    simp only [List.length_append, be32_length, hlen]
  have hlen2 : (ct ++ be32 s.nonceCounter).length - NONCE_SIZE = ct.length := by
    simp only [hblen, hlen, NONCE_SIZE]
    omega
  have htake : (ct ++ be32 s.nonceCounter).take
      ((ct ++ be32 s.nonceCounter).length - NONCE_SIZE) = ct := by
    rw [hlen2]; exact List.take_left ct _
  have hdrop : (ct ++ be32 s.nonceCounter).drop
      ((ct ++ be32 s.nonceCounter).length - NONCE_SIZE) = be32 s.nonceCounter := by
    rw [hlen2]; exact List.drop_left ct _
  cases hm : s.mode with
  | noneMode => exact absurd hm hmode
  | aes256gcm =>
    rw [hm] at henc hdec
    simp only [noncePadLen] at henc hdec
    have hcore : encryptCore prim s header payload = some (ct ++ be32 s.nonceCounter) := by
      simp only [encryptCore, hm, EncryptAES256GCM, henc]
    have hE := Encrypt_of_core_some prim s header payload _ hinit hmode h3 hcore
    have h20 : ¬ (ct ++ be32 s.nonceCounter).length < NONCE_SIZE + AES_GCM_TAG_SIZE := by
      simp only [NONCE_SIZE, AES_GCM_TAG_SIZE]; omega
    have h4 : ¬ (ct ++ be32 s.nonceCounter).length < GetCurrentTagSize s.mode + NONCE_SIZE := by
      rw [hm]; simp only [GetCurrentTagSize, AES_GCM_TAG_SIZE, NONCE_SIZE]; omega
    have hcore2 : decryptCore prim s.mode s.secretKey header (ct ++ be32 s.nonceCounter)
        = some payload := by
      rw [hm]
      simp only [decryptCore, DecryptAES256GCM]
      rw [if_neg h20, htake, hdrop]
      exact hdec
    refine ⟨by rw [hE], ?_⟩
    rw [hE]
    show (Decrypt prim ⟨s.mode, s.secretKey, (s.nonceCounter + 1) % UINT32_MOD, s.inited⟩
        header (ct ++ be32 s.nonceCounter)).1 = CryptoResult.ok payload
    rw [Decrypt_of_core_some prim ⟨s.mode, s.secretKey, (s.nonceCounter + 1) % UINT32_MOD, s.inited⟩
        header (ct ++ be32 s.nonceCounter) payload hinit hmode h3 h4 hcore2]
  | xchacha20poly1305 =>
    rw [hm] at henc hdec
    simp only [noncePadLen] at henc hdec
    have hcore : encryptCore prim s header payload = some (ct ++ be32 s.nonceCounter) := by
      simp only [encryptCore, hm, EncryptXChaCha20Poly1305, henc]
    have hE := Encrypt_of_core_some prim s header payload _ hinit hmode h3 hcore
    have h20 : ¬ (ct ++ be32 s.nonceCounter).length < NONCE_SIZE + XCHACHA20_POLY1305_TAG_SIZE := by
      simp only [NONCE_SIZE, XCHACHA20_POLY1305_TAG_SIZE]; omega
    have h4 : ¬ (ct ++ be32 s.nonceCounter).length < GetCurrentTagSize s.mode + NONCE_SIZE := by
      rw [hm]; simp only [GetCurrentTagSize, XCHACHA20_POLY1305_TAG_SIZE, NONCE_SIZE]; omega
    have hcore2 : decryptCore prim s.mode s.secretKey header (ct ++ be32 s.nonceCounter)
        = some payload := by
      rw [hm]
      simp only [decryptCore, DecryptXChaCha20Poly1305]
      rw [if_neg h20, htake, hdrop]
      exact hdec
    refine ⟨by rw [hE], ?_⟩
    rw [hE]
    show (Decrypt prim ⟨s.mode, s.secretKey, (s.nonceCounter + 1) % UINT32_MOD, s.inited⟩
        header (ct ++ be32 s.nonceCounter)).1 = CryptoResult.ok payload
    rw [Decrypt_of_core_some prim ⟨s.mode, s.secretKey, (s.nonceCounter + 1) % UINT32_MOD, s.inited⟩
        header (ct ++ be32 s.nonceCounter) payload hinit hmode h3 h4 hcore2]

/-- Witness for C1: the round-trip at a concrete key, header and payload
under the executable toy AEAD. -/
theorem encrypt_decrypt_roundtrip_witness :
    (Decrypt toyPrims (Encrypt toyPrims sReady hdr12 [5]).2 hdr12
        (([5] ++ List.replicate 16 6) ++ be32 0)).1 = .ok [5] :=
  (encrypt_decrypt_roundtrip toyPrims sReady hdr12 [5] ([5] ++ List.replicate 16 6)
    (by decide) (by decide) (by decide) (by decide) (by decide) (by decide) (by decide)).2

/-- C2: for a configured cipher, any blob obtained by flipping a single
byte of a valid ciphertext blob (wherever the flip lands: ciphertext, tag
or trailing nonce bytes), and any altered header over the unchanged blob,
makes decrypt fail with the decryption-failure error — a constructor
distinct from the generic crypto-operation failure — and never yields a
plaintext result; the cipher state is untouched.  The AEAD primitive's
rejection of the tampered input is the abstracted libsodium authentication
check, stated as a hypothesis. -/
theorem decrypt_tamper_auth_failed (prim : EncryptionMode → AEADPrim) (s : CryptoState)
    (header header₂ payload blob : List Nat) (i v : Nat)
    (hinit : s.inited = true) (hmode : s.mode ≠ .noneMode)
    (hhdr : RTP_HEADER_SIZE ≤ header.length)
    (hhdr₂ : RTP_HEADER_SIZE ≤ header₂.length)
    (horigin : (Encrypt prim s header payload).1 = .ok blob)
    (hblob : GetCurrentTagSize s.mode + NONCE_SIZE ≤ blob.length)
    (hflip : blob.set i v ≠ blob)
    (halter : header₂ ≠ header)
    (hrej₁ : decryptCore prim s.mode s.secretKey header (blob.set i v) = none)
    (hrej₂ : decryptCore prim s.mode s.secretKey header₂ blob = none) :
    Decrypt prim s header (blob.set i v) = (.error .decryptionFailed, s) ∧
    Decrypt prim s header₂ blob = (.error .decryptionFailed, s) ∧
    CryptoError.decryptionFailed ≠ CryptoError.encryptionFailed := by
  have h3 : ¬ header.length < RTP_HEADER_SIZE := Nat.not_lt.mpr hhdr
  have h3' : ¬ header₂.length < RTP_HEADER_SIZE := Nat.not_lt.mpr hhdr₂
  have h4 : ¬ (blob.set i v).length < GetCurrentTagSize s.mode + NONCE_SIZE := by
    rw [List.length_set]; exact Nat.not_lt.mpr hblob
  have h4' : ¬ blob.length < GetCurrentTagSize s.mode + NONCE_SIZE := Nat.not_lt.mpr hblob
  refine ⟨?_, ?_, by decide⟩
  · exact Decrypt_of_core_none prim s header (blob.set i v) hinit hmode h3 h4 hrej₁
  · exact Decrypt_of_core_none prim s header₂ blob hinit hmode h3' h4' hrej₂

/-- Witness for C2: a byte flip at position 0 of a concretely encrypted
blob, and a changed 12-byte header over the intact blob, both rejected. -/
theorem decrypt_tamper_auth_failed_witness :
    Decrypt toyPrims sReady hdr12 ((([5] ++ List.replicate 16 6) ++ be32 0).set 0 7) =
      (.error .decryptionFailed, sReady) ∧
    Decrypt toyPrims sReady (List.replicate 12 1) (([5] ++ List.replicate 16 6) ++ be32 0) =
      (.error .decryptionFailed, sReady) := by
  have h := decrypt_tamper_auth_failed toyPrims sReady hdr12 (List.replicate 12 1) [5]
    (([5] ++ List.replicate 16 6) ++ be32 0) 0 7
    (by decide) (by decide) (by decide) (by decide) (by decide) (by decide)
    (by decide) (by decide) (by decide) (by decide)
  exact ⟨h.1, h.2.1⟩

/-- C3 counterexample: with the counter at `2 ^ 32 - 1` a successful
encrypt does not increase `getNonce()` by exactly 1 — the `uint32_t`
counter wraps to 0. -/
theorem encrypt_increment_wrap_cex :
    (Encrypt toyPrims sWrap hdr12 []).1 =
      .ok (List.replicate 16 253 ++ be32 4294967295) ∧
    GetNonce (Encrypt toyPrims sWrap hdr12 []).2 = 0 ∧
    GetNonce sWrap + 1 = 4294967296 := by
  refine ⟨by decide, by decide, by decide⟩

/-- C3 (amended): each successful encrypt sets the counter to
`(old + 1) mod 2 ^ 32` — an increase by exactly 1 whenever the counter is
below `2 ^ 32 - 1`; a failed encrypt leaves the whole state unchanged; and
decrypt, whether it succeeds or fails, never changes the state. -/
theorem nonce_counter_update (prim : EncryptionMode → AEADPrim) (s : CryptoState)
    (header payload blob : List Nat) (e : CryptoError) :
    ((Encrypt prim s header payload).1 = .ok blob →
        GetNonce (Encrypt prim s header payload).2 = (GetNonce s + 1) % UINT32_MOD ∧
        (GetNonce s + 1 < UINT32_MOD →
          GetNonce (Encrypt prim s header payload).2 = GetNonce s + 1)) ∧
    ((Encrypt prim s header payload).1 = .error e →
        (Encrypt prim s header payload).2 = s) ∧
    (Decrypt prim s header blob).2 = s := by
  refine ⟨?_, fun he => Encrypt_snd_of_error prim s header payload e he,
    Decrypt_snd prim s header blob⟩
  intro hok
  have h2 := Encrypt_snd_of_ok prim s header payload blob hok
  constructor
  · rw [GetNonce, h2]
    rfl
  · intro hlt
    rw [GetNonce, h2]
    exact Nat.mod_eq_of_lt hlt

/-- Witness for C3 (amended): concrete successful encrypt increments 0 to
1, a failed encrypt (header too short) leaves the state unchanged, and a
decrypt leaves the state unchanged. -/
theorem nonce_counter_update_witness :
    GetNonce (Encrypt toyPrims sReady hdr12 [5]).2 = GetNonce sReady + 1 ∧
    (Encrypt toyPrims sReady [0] [5]).2 = sReady ∧
    (Decrypt toyPrims sReady hdr12 [0, 1]).2 = sReady := by
  refine ⟨((nonce_counter_update toyPrims sReady hdr12 [5]
      (([5] ++ List.replicate 16 6) ++ be32 0) .headerTooSmall).1
      (by decide)).2 (by decide), ?_, ?_⟩
  · exact (nonce_counter_update toyPrims sReady [0] [5] [] .headerTooSmall).2.1 (by decide)
  · exact (nonce_counter_update toyPrims sReady hdr12 [] [0, 1] .headerTooSmall).2.2

/-- C4: a successful encrypt returns the AEAD combined
ciphertext-plus-16-byte-tag followed by the current 32-bit counter in
big-endian order as the trailing 4 bytes, in both modes; the AEAD nonce
passed to the primitive is 8 zero bytes (12-byte AES-256-GCM nonce) or 20
zero bytes (24-byte XChaCha20-Poly1305 nonce) followed by those same 4
big-endian counter bytes. -/
theorem encrypt_wire_layout (prim : EncryptionMode → AEADPrim) (s : CryptoState)
    (header payload ct : List Nat)
    (hinit : s.inited = true)
    (hhdr : RTP_HEADER_SIZE ≤ header.length)
    (hlen : ct.length = payload.length + 16) :
    (s.mode = .aes256gcm →
      (prim .aes256gcm).enc s.secretKey
          (List.replicate 8 0 ++ be32 s.nonceCounter) header payload = some ct →
      (Encrypt prim s header payload).1 = .ok (ct ++ be32 s.nonceCounter) ∧
      (ct ++ be32 s.nonceCounter).length = payload.length + 20 ∧
      (List.replicate 8 0 ++ be32 s.nonceCounter).length = 12) ∧
    (s.mode = .xchacha20poly1305 →
      (prim .xchacha20poly1305).enc s.secretKey
          (List.replicate 20 0 ++ be32 s.nonceCounter) header payload = some ct →
      (Encrypt prim s header payload).1 = .ok (ct ++ be32 s.nonceCounter) ∧
      (ct ++ be32 s.nonceCounter).length = payload.length + 20 ∧
      (List.replicate 20 0 ++ be32 s.nonceCounter).length = 24) ∧
    (be32 s.nonceCounter).length = 4 := by
  have h3 : ¬ header.length < RTP_HEADER_SIZE := Nat.not_lt.mpr hhdr
  have hblen : (ct ++ be32 s.nonceCounter).length = payload.length + 20 := by
    simp only [List.length_append, be32_length, hlen]
  refine ⟨?_, ?_, be32_length s.nonceCounter⟩
  · intro hm henc
    have hcore : encryptCore prim s header payload = some (ct ++ be32 s.nonceCounter) := by
      simp only [encryptCore, hm, EncryptAES256GCM, henc]
    refine ⟨?_, hblen, by simp [be32_length]⟩
    rw [Encrypt_of_core_some prim s header payload _ hinit (by simp [hm]) h3 hcore]
  · intro hm henc
    have hcore : encryptCore prim s header payload = some (ct ++ be32 s.nonceCounter) := by
      simp only [encryptCore, hm, EncryptXChaCha20Poly1305, henc]
    refine ⟨?_, hblen, by simp [be32_length]⟩
    rw [Encrypt_of_core_some prim s header payload _ hinit (by simp [hm]) h3 hcore]

/-- Witness for C4: concrete blobs in both modes under the toy AEAD carry
the big-endian counter as their trailing 4 bytes. -/
theorem encrypt_wire_layout_witness :
    (Encrypt toyPrims sGcm hdr12 [5]).1 = .ok (([5] ++ List.replicate 16 6) ++ be32 0) ∧
    (Encrypt toyPrims sReady hdr12 [5]).1 = .ok (([5] ++ List.replicate 16 6) ++ be32 0) := by
  refine ⟨?_, ?_⟩
  · exact ((encrypt_wire_layout toyPrims sGcm hdr12 [5] ([5] ++ List.replicate 16 6)
      (by decide) (by decide) (by decide)).1 (by decide) (by decide)).1
  · exact ((encrypt_wire_layout toyPrims sReady hdr12 [5] ([5] ++ List.replicate 16 6)
      (by decide) (by decide) (by decide)).2.1 (by decide) (by decide)).1

/-- C5 counterexample: on an instance whose key was never set (the 32-byte
all-zero placeholder from `InitializeCrypto`), encrypt does not fail with a
not-configured error — it succeeds, encrypting under the zero key. -/
theorem encrypt_missing_key_cex :
    (Encrypt toyPrims sNoKey hdr12 [1, 2, 3]).1 =
      .ok (([1, 2, 3] ++ List.replicate 16 6) ++ be32 0) ∧
    (Encrypt toyPrims sNoKey hdr12 [1, 2, 3]).1 ≠ .error .notInited ∧
    (Encrypt toyPrims sNoKey hdr12 [1, 2, 3]).1 ≠ .error .noModeSet := by
  refine ⟨by decide, by decide, by decide⟩

/-- C5 (amended): encrypt fails with the not-initialized error exactly when
the instance failed initialisation and with the no-mode-set error when the
mode is None; absence of a key is never checked (encrypt proceeds with the
all-zero placeholder); for every initialised instance with a concrete mode,
a header shorter than 12 bytes fails with the header-too-small error. -/
theorem encrypt_validation_errors (prim : EncryptionMode → AEADPrim) (s : CryptoState)
    (header payload : List Nat) :
    (s.inited = false → Encrypt prim s header payload = (.error .notInited, s)) ∧
    (s.inited = true → s.mode = .noneMode →
      Encrypt prim s header payload = (.error .noModeSet, s)) ∧
    (s.inited = true → s.mode ≠ .noneMode → header.length < RTP_HEADER_SIZE →
      Encrypt prim s header payload = (.error .headerTooSmall, s)) := by
  refine ⟨fun h1 => by simp [Encrypt, h1],
    fun h1 h2 => by simp [Encrypt, h1, h2],
    fun h1 h2 h3 => by simp [Encrypt, h1, h2, h3]⟩

/-- Witness for C5 (amended): the three validation failures at concrete
states. -/
theorem encrypt_validation_errors_witness :
    Encrypt toyPrims { sReady with inited := false } hdr12 [] =
      (.error .notInited, { sReady with inited := false }) ∧
    Encrypt toyPrims { sReady with mode := .noneMode } hdr12 [] =
      (.error .noModeSet, { sReady with mode := .noneMode }) ∧
    Encrypt toyPrims sReady [0] [] = (.error .headerTooSmall, sReady) := by
  refine ⟨(encrypt_validation_errors toyPrims _ hdr12 []).1 (by decide),
    (encrypt_validation_errors toyPrims _ hdr12 []).2.1 (by decide) (by decide),
    (encrypt_validation_errors toyPrims sReady [0] []).2.2 (by decide) (by decide) (by decide)⟩

/-- C9: the counter arithmetic is modulo `2 ^ 32`: at `2 ^ 32 - 1` both
`incrementNonce()` and a successful encrypt wrap the counter to 0, and
`setNonce` stores its argument truncated to 32 bits. -/
theorem nonce_modulo_two_pow_32 (prim : EncryptionMode → AEADPrim) (s : CryptoState)
    (v : Nat) (header payload blob : List Nat)
    (hwrap : GetNonce s = UINT32_MOD - 1) :
    (IncrementNonce s).1 = 0 ∧
    GetNonce (IncrementNonce s).2 = 0 ∧
    ((Encrypt prim s header payload).1 = .ok blob →
        GetNonce (Encrypt prim s header payload).2 = 0) ∧
    GetNonce (SetNonce s v) = v % UINT32_MOD := by
  have hc : s.nonceCounter = UINT32_MOD - 1 := hwrap
  have hmod : (s.nonceCounter + 1) % UINT32_MOD = 0 := by
    rw [hc]; decide
  refine ⟨by simp [IncrementNonce, hmod], by simp [IncrementNonce, GetNonce, hmod], ?_,
    by simp [SetNonce, GetNonce]⟩
  intro hok
  rw [GetNonce, Encrypt_snd_of_ok prim s header payload blob hok]
  exact hmod

/-- Witness for C9: the wrap and the truncation at concrete values. -/
theorem nonce_modulo_two_pow_32_witness :
    (IncrementNonce sWrap).1 = 0 ∧
    GetNonce (Encrypt toyPrims sWrap hdr12 []).2 = 0 ∧
    GetNonce (SetNonce sWrap 4294967297) = 1 := by
  have h := nonce_modulo_two_pow_32 toyPrims sWrap 4294967297 hdr12 []
    (List.replicate 16 253 ++ be32 4294967295) (by decide)
  refine ⟨h.1, h.2.2.1 (by decide), ?_⟩
  have h2 := h.2.2.2
  rw [h2]
  decide

end VoiceTransportCrypto

/-! ## Theorems: suffix-framed zlib inflate stream -/

namespace DiscordInflateStream

/-- C6: a compressed message split into two chunks, where only the second
ends with the 4-byte `00 00 FF FF` marker, yields nothing on the first push
(the data is only buffered and the push reports not-processed) and, on the
second push, the whole accumulated input goes through the codec in one
sync-flush pass, the full decompressed message lands in the output
accumulator, the input accumulator is cleared, and the push reports
processed. -/
theorem split_message_two_pushes (c : ZlibCodec) (fuel : Nat) (s : StreamState)
    (c1 c2 msg : List Nat) (st' : Nat)
    (hinit : s.inited = true) (hfin : s.finished = false) (hbuf : s.buffer = [])
    (h1 : c1 ≠ []) (h2 : c2 ≠ [])
    (hns : HasZlibSuffix c1 = false)
    (hs : HasZlibSuffix (c1 ++ c2) = true)
    (hstep : c.step s.codecSt (c1 ++ c2) s.chunkSize =
      ⟨st', (c1 ++ c2).length, msg, Z_OK⟩) :
    (Push c (fuel + 1) s c1).2 = .ok false ∧
    (Push c (fuel + 1) s c1).1.outputBuffer = s.outputBuffer ∧
    (Push c (fuel + 1) s c1).1.buffer = c1 ∧
    (Push c (fuel + 1) (Push c (fuel + 1) s c1).1 c2).2 = .ok true ∧
    (Push c (fuel + 1) (Push c (fuel + 1) s c1).1 c2).1.outputBuffer =
      s.outputBuffer ++ msg ∧
    (Push c (fuel + 1) (Push c (fuel + 1) s c1).1 c2).1.buffer = [] := by
  have hl1 : ¬ c1.length = 0 := by simpa using h1
  have hl2 : ¬ c2.length = 0 := by simpa using h2
  have hp1 : Push c (fuel + 1) s c1 =
      ({ s with buffer := c1, bytesRead := s.bytesRead + c1.length }, .ok false) := by
    simp [Push, hinit, hfin, hl1, ProcessBuffer, hbuf, hns]
  refine ⟨by rw [hp1], by rw [hp1], by rw [hp1], ?_, ?_, ?_⟩ <;>
  · rw [hp1]
    simp [Push, hinit, hfin, hl2, ProcessBuffer, hs, inflateLoop, hstep,
      List.drop_length, Z_OK, Z_BUF_ERROR]

/-- Witness for C6 under the concrete echo codec: the chunk `[1, 2]` alone
is buffered, and appending `[3, 0, 0, 255, 255]` flushes the whole
accumulated message. -/
theorem split_message_two_pushes_witness :
    (Push echoCodec 1 freshStream [1, 2]).2 = .ok false ∧
    (Push echoCodec 1 (Push echoCodec 1 freshStream [1, 2]).1 [3, 0, 0, 255, 255]).2 =
      .ok true ∧
    (Push echoCodec 1 (Push echoCodec 1 freshStream [1, 2]).1
        [3, 0, 0, 255, 255]).1.outputBuffer = [1, 2, 3, 0, 0, 255, 255] := by
  have h := split_message_two_pushes echoCodec 0 freshStream [1, 2] [3, 0, 0, 255, 255]
    [1, 2, 3, 0, 0, 255, 255] 0 (by decide) (by decide) (by decide) (by decide)
    (by decide) (by decide) (by decide) (by decide)
  exact ⟨h.1, h.2.2.2.1, h.2.2.2.2.1⟩

/-- C10: when the accumulated input ends with the marker but the codec
reports a breaking error during decompression, the push still returns
processed (true, not a thrown error), the input accumulator is cleared (the
erroring bytes are discarded, not retained), the output produced by the
iterations before the error point stays in the output accumulator, and the
error is recorded only in the sticky `last_error_` state (`finished` is
untouched). -/
theorem suffix_error_push (c : ZlibCodec) (fuel : Nat) (s : StreamState)
    (data out : List Nat) (st' : Nat) (code : Int)
    (hinit : s.inited = true) (hfin : s.finished = false) (hdata : data ≠ [])
    (hs : HasZlibSuffix (s.buffer ++ data) = true)
    (hrun : inflateLoop c fuel s.codecSt (s.buffer ++ data) s.chunkSize [] =
      .fail st' out code) :
    (Push c fuel s data).2 = .ok true ∧
    (Push c fuel s data).1.buffer = [] ∧
    (Push c fuel s data).1.outputBuffer = s.outputBuffer ++ out ∧
    (Push c fuel s data).1.lastError = code ∧
    (Push c fuel s data).1.finished = s.finished := by
  have hld : ¬ data.length = 0 := by simpa using hdata
  have hp : Push c fuel s data =
      ({ s with codecSt := st', buffer := [],
                outputBuffer := s.outputBuffer ++ out,
                bytesRead := s.bytesRead + data.length,
                bytesWritten := s.bytesWritten + out.length,
                lastError := code }, .ok true) := by
    simp [Push, hinit, hfin, hld, ProcessBuffer, hs, hrun]
  refine ⟨by rw [hp], by rw [hp], by rw [hp], by rw [hp], by rw [hp]⟩

/-- Witness for C10 under a concrete codec that succeeds once (producing
`[9]`) and then reports `Z_DATA_ERROR`: the pre-error output is kept, the
input is discarded, the error is sticky and the push returns true. -/
theorem suffix_error_push_witness :
    (Push failSecondCodec 3 freshStream [1, 2, 3, 4, 0, 0, 255, 255]).2 = .ok true ∧
    (Push failSecondCodec 3 freshStream [1, 2, 3, 4, 0, 0, 255, 255]).1.buffer = [] ∧
    (Push failSecondCodec 3 freshStream [1, 2, 3, 4, 0, 0, 255, 255]).1.outputBuffer = [9] ∧
    (Push failSecondCodec 3 freshStream [1, 2, 3, 4, 0, 0, 255, 255]).1.lastError =
      Z_DATA_ERROR := by
  have h := suffix_error_push failSecondCodec 3 freshStream [1, 2, 3, 4, 0, 0, 255, 255]
    [9] 1 Z_DATA_ERROR (by decide) (by decide) (by decide) (by decide) (by decide)
  exact ⟨h.1, h.2.1, h.2.2.1, h.2.2.2.1⟩

end DiscordInflateStream

/-! ## Theorems: zstd frame inflate stream -/

namespace ZstdInflateStream

/-- C7: pushing the concatenation of two independently compressed
self-delimiting frames in one call drives the codec twice — each call
consuming exactly its frame and reporting a frame boundary — so
`stats.framesProcessed` is 2, the output accumulator equals the
concatenation of the two plaintexts, and the input accumulator is trimmed
by exactly the consumed byte count (here, emptied). -/
theorem two_frames_one_push (c : ZstdCodec) (n : Nat) (s : StreamState)
    (f1 f2 p1 p2 : List Nat) (st1 st2 : Nat)
    (hinit : s.inited = true) (hfin : s.finished = false)
    (hbuf : s.inputBuffer = []) (hout : s.outputBuffer = [])
    (hframes : s.framesProcessed = 0)
    (h1 : f1 ≠ []) (h2 : f2 ≠ []) (hp1 : p1 ≠ []) (hp2 : p2 ≠ [])
    (hok : c.isErr 0 = false)
    (hstep1 : c.step s.codecSt (f1 ++ f2) s.outBufferSize = ⟨st1, f1.length, p1, 0⟩)
    (hstep2 : c.step st1 f2 s.outBufferSize = ⟨st2, f2.length, p2, 0⟩) :
    (Push c (n + 3) s (f1 ++ f2)).2 = .ok true ∧
    (GetStats (Push c (n + 3) s (f1 ++ f2)).1).framesProcessed = 2 ∧
    (Push c (n + 3) s (f1 ++ f2)).1.outputBuffer = p1 ++ p2 ∧
    (Push c (n + 3) s (f1 ++ f2)).1.inputBuffer = [] := by
  have hl1 : 0 < f1.length := List.length_pos.mpr h1
  have hl2 : 0 < f2.length := List.length_pos.mpr h2
  have hne : (f1 ++ f2) ≠ [] := fun hx => h1 (List.append_eq_nil.mp hx).1
  have hl : ¬ (f1 ++ f2).length = 0 := by simpa using hne
  have hc1 : 0 < (f1 ++ f2).length := Nat.pos_of_ne_zero hl
  have hc2 : f1.length < (f1 ++ f2).length := by
    simp only [List.length_append]; omega
  have hc3 : ¬ f1.length + f2.length < (f1 ++ f2).length := by
    simp only [List.length_append]; omega
  have hdropall : (f1 ++ f2).drop (f1.length + f2.length) = [] := by
    rw [← List.length_append]; exact List.drop_length _
  have hdropf1 : (f1 ++ f2).drop f1.length = f2 := List.drop_left f1 f2
  have hp : Push c (n + 3) s (f1 ++ f2) =
      ({ s with codecSt := st2, inputBuffer := [],
                outputBuffer := p1 ++ p2,
                bytesRead := s.bytesRead + (f1 ++ f2).length,
                bytesWritten := s.bytesWritten + (p1 ++ p2).length,
                framesProcessed := 2 }, .ok true) := by
    simp [Push, hinit, hfin, hl, ProcessBuffer, hbuf, hne, decompressLoop,
      hc1, hc2, hc3, hstep1, hstep2, hok, hp1, hp2, hdropall, hdropf1,
      hout, hframes, h1, h2, hl1, hl2]
  refine ⟨by rw [hp], ?_, by rw [hp], by rw [hp]⟩
  rw [hp]
  simp [GetStats]

/-- Witness for C7 under the concrete two-frame codec: `[1, 2]` and `[3]`
concatenated in one push produce the two plaintexts `[10]` and `[20]` and a
frame count of 2. -/
theorem two_frames_one_push_witness :
    (Push twoFrameCodec 3 freshZstd [1, 2, 3]).2 = .ok true ∧
    (GetStats (Push twoFrameCodec 3 freshZstd [1, 2, 3]).1).framesProcessed = 2 ∧
    (Push twoFrameCodec 3 freshZstd [1, 2, 3]).1.outputBuffer = [10] ++ [20] ∧
    (Push twoFrameCodec 3 freshZstd [1, 2, 3]).1.inputBuffer = [] := by
  exact two_frames_one_push twoFrameCodec 0 freshZstd [1, 2] [3] [10] [20] 1 2
    (by decide) (by decide) (by decide) (by decide) (by decide) (by decide)
    (by decide) (by decide) (by decide) (by decide) (by decide) (by decide)

end ZstdInflateStream

/-! ## Theorems: idempotent close across components -/

/-- C8: on both decompression stream components, a second `close()` is a
no-op (the codec handle release is guarded, so the state after two closes
equals the state after one), and a `push` after `close()` fails with the
stream-not-initialized error, leaving the state untouched.  The transport
cipher exposes no `close()` operation, so its clause is vacuous.  The
hypothesis ties the zstd `initialized_` flag to a live handle pointer, as
established by construction. -/
theorem close_idempotent_and_push_after_close
    (zc : DiscordInflateStream.ZlibCodec) (sc : ZstdInflateStream.ZstdCodec)
    (fuel fuel₂ : Nat) (s : DiscordInflateStream.StreamState)
    (t : ZstdInflateStream.StreamState) (data data₂ : List Nat)
    (hinv : t.inited = true → t.handleAlive = true) :
    DiscordInflateStream.Close (DiscordInflateStream.Close s) =
      DiscordInflateStream.Close s ∧
    ZstdInflateStream.Close (ZstdInflateStream.Close t) = ZstdInflateStream.Close t ∧
    DiscordInflateStream.Push zc fuel (DiscordInflateStream.Close s) data =
      (DiscordInflateStream.Close s, .error .notInited) ∧
    ZstdInflateStream.Push sc fuel₂ (ZstdInflateStream.Close t) data₂ =
      (ZstdInflateStream.Close t, .error .notInited) := by
  have hz : (DiscordInflateStream.Close s).inited = false := by
    by_cases h : s.inited = true
    · simp [DiscordInflateStream.Close, h]
    · have h' : s.inited = false := by
        cases hs : s.inited
        · rfl
        · exact absurd hs h
      simp [DiscordInflateStream.Close, h']
  have ht : (ZstdInflateStream.Close t).inited = false := by
    by_cases h : t.handleAlive = true
    · simp [ZstdInflateStream.Close, h]
    · have h' : t.handleAlive = false := by
        cases hs : t.handleAlive
        · rfl
        · exact absurd hs h
      have h2 : t.inited = false := by
        cases hs : t.inited
        · rfl
        · exact absurd (hinv hs) h
      simp [ZstdInflateStream.Close, h', h2]
  refine ⟨?_, ?_, ?_, ?_⟩
  · by_cases h : s.inited = true
    · have : (DiscordInflateStream.Close s).inited = false := hz
      simp [DiscordInflateStream.Close, h] at this ⊢
    · have h' : s.inited = false := by
        cases hs : s.inited
        · rfl
        · exact absurd hs h
      simp [DiscordInflateStream.Close, h']
  · by_cases h : t.handleAlive = true
    · simp [ZstdInflateStream.Close, h]
    · have h' : t.handleAlive = false := by
        cases hs : t.handleAlive
        · rfl
        · exact absurd hs h
      simp [ZstdInflateStream.Close, h']
  · simp [DiscordInflateStream.Push, hz]
  · simp [ZstdInflateStream.Push, ht]

/-- Witness for C8: concrete fresh streams closed twice, then pushed. -/
theorem close_idempotent_and_push_after_close_witness :
    DiscordInflateStream.Close (DiscordInflateStream.Close DiscordInflateStream.freshStream) =
      DiscordInflateStream.Close DiscordInflateStream.freshStream ∧
    DiscordInflateStream.Push DiscordInflateStream.echoCodec 1
        (DiscordInflateStream.Close DiscordInflateStream.freshStream) [1] =
      (DiscordInflateStream.Close DiscordInflateStream.freshStream, .error .notInited) ∧
    ZstdInflateStream.Push ZstdInflateStream.twoFrameCodec 1
        (ZstdInflateStream.Close ZstdInflateStream.freshZstd) [1] =
      (ZstdInflateStream.Close ZstdInflateStream.freshZstd, .error .notInited) := by
  have h := close_idempotent_and_push_after_close
    DiscordInflateStream.echoCodec ZstdInflateStream.twoFrameCodec 1 1
    DiscordInflateStream.freshStream ZstdInflateStream.freshZstd [1] [1] (by decide)
  exact ⟨h.1, h.2.2.1, h.2.2.2⟩

end Nyxo
